import Mathlib

/-!
Shallow embedding of the schedutil cpufreq governor
(`kernel/sched/cpufreq_schedutil.c`) and proofs about its
frequency-selection, rate-limiting, iowait-boost, shared-policy
aggregation and PM-QoS min-floor logic.

Machine integers are modelled as `Nat` with explicit `% 2^w` reductions at
the points where the C code truncates; `s64` quantities obtained by
subtracting `u64` timestamps are modelled by an explicit two's-complement
reinterpretation.  External collaborators (the cpufreq driver's frequency
resolution and fast-switch entry points, the architecture's
frequency-invariance predicate, the utilization source) are either
parameters of the embedded functions or modelled from the specification,
as marked in the individual doc comments.
-/

namespace Schedutil

/-- `UINT_MAX`, the 32-bit sentinel used for `sugov_policy.next_freq`. -/
def UINT_MAX : Nat := 4294967295

/-- `CPUFREQ_ENTRY_INVALID` (`~0u`), the "rejected" sentinel of the fast
switch path. -/
def CPUFREQ_ENTRY_INVALID : Nat := 4294967295

/-- `SCHED_CPUFREQ_DL` flag bit (`1 << 1`, from the kernel headers). -/
def SCHED_CPUFREQ_DL : Nat := 2

/-- `SCHED_CPUFREQ_IOWAIT` flag bit (`1 << 2`, from the kernel headers). -/
def SCHED_CPUFREQ_IOWAIT : Nat := 4

/-- One scheduler tick period in nanoseconds (`TICK_NSEC`); the kernel
constant for HZ = 250.  Its concrete value is irrelevant to the theorems
below, which compare elapsed times against it symbolically or use inputs
on one definite side of it. -/
def TICK_NSEC : Nat := 4000000

/-- 2^64, the modulus of `u64` arithmetic. -/
def U64_MOD : Nat := 18446744073709551616

/-- 2^63, the two's-complement sign boundary of `s64`. -/
def S64_HALF : Nat := 9223372036854775808

/-- Reinterpret a `u64` bit pattern as a signed `s64` value. -/
def s64ofU64 (n : Nat) : Int :=
  if n % U64_MOD < S64_HALF then ((n % U64_MOD : Nat) : Int)
  else ((n % U64_MOD : Nat) : Int) - (U64_MOD : Int)

/-- `u64` subtraction `a - b` (wrapping modulo 2^64). -/
def u64sub (a b : Nat) : Nat := (a + (U64_MOD - b % U64_MOD)) % U64_MOD

/-- `delta_ns = time - last` as computed in the C code: a `u64`
subtraction whose result is stored in an `s64`. -/
def deltaNs (time last : Nat) : Int := s64ofU64 (u64sub time last)

/-- For in-range timestamps with `last ≤ time`, `deltaNs` is the plain
difference. -/
theorem deltaNs_eq_sub (time last : Nat) (hle : last ≤ time)
    (hlt : time < S64_HALF) : deltaNs time last = (time : Int) - (last : Int) := by
  have hlast : last < U64_MOD := by
    unfold S64_HALF at hlt; unfold U64_MOD; omega
  have htime : time < U64_MOD := by
    unfold S64_HALF at hlt; unfold U64_MOD; omega
  unfold deltaNs u64sub s64ofU64
  have hmod : last % U64_MOD = last := Nat.mod_eq_of_lt hlast
  rw [hmod]
  have h1 : time + (U64_MOD - last) = (time - last) + U64_MOD := by omega
  have h2 : (time + (U64_MOD - last)) % U64_MOD = time - last := by
    rw [h1, Nat.add_mod_right]
    exact Nat.mod_eq_of_lt (by omega)
  rw [h2]
  have h3 : (time - last) % U64_MOD = time - last :=
    Nat.mod_eq_of_lt (by omega)
  rw [h3]
  have h4 : time - last < S64_HALF := by omega
  simp only [if_pos h4]
  omega

/-- `struct cpufreq_policy`: the fields of the policy read by the
governor core (`cur`, `min`, `max`, `cpuinfo.max_freq`,
`fast_switch_enabled`) together with the driver's discrete frequency
table, which stands in for the externally owned table consulted by
`cpufreq_driver_resolve_freq`. -/
structure CpufreqPolicy where
  cur : Nat
  min : Nat
  max : Nat
  cpuinfo_max_freq : Nat
  fast_switch_enabled : Bool
  freq_table : List Nat
deriving Repr, DecidableEq

/-- `struct sugov_policy`: per-frequency-domain governor state. -/
structure SugovPolicy where
  policy : CpufreqPolicy
  last_freq_update_time : Nat
  min_rate_limit_ns : Int
  up_rate_delay_ns : Int
  down_rate_delay_ns : Int
  next_freq : Nat
  cached_raw_freq : Nat
  work_in_progress : Bool
  need_freq_update : Bool
deriving Repr, DecidableEq

/-- `struct sugov_cpu`: per-core governor state. -/
structure SugovCpu where
  iowait_boost : Nat
  iowait_boost_max : Nat
  last_update : Nat
  util : Nat
  max : Nat
  flags : Nat
  saved_idle_calls : Nat
deriving Repr, DecidableEq

/-- A hardware call emitted by the governor: a non-blocking fast-switch
request, a deferred (queued) apply, or a direct blocking
`__cpufreq_driver_target` call.  Each carries the requested frequency. -/
inductive DriverCall where
  | fast (freq : Nat)
  | queued (freq : Nat)
  | blocking (freq : Nat)
deriving Repr, DecidableEq

/-- `sugov_should_update_freq`: gate deciding whether to recompute the
frequency; returns the decision together with the updated policy state. -/
def sugov_should_update_freq (sg_policy : SugovPolicy) (time : Nat) :
    Bool × SugovPolicy :=
  if sg_policy.work_in_progress then
    (false, sg_policy)
  else if sg_policy.need_freq_update then
    (true, { sg_policy with need_freq_update := false, next_freq := UINT_MAX })
  else
    let delta_ns : Int := deltaNs time sg_policy.last_freq_update_time
    (decide (delta_ns ≥ sg_policy.min_rate_limit_ns), sg_policy)

/-- `sugov_up_down_rate_limit`: `true` means the new target is blocked by
the direction-wise rate limit. -/
def sugov_up_down_rate_limit (sg_policy : SugovPolicy) (time : Nat)
    (next_freq : Nat) : Bool :=
  let delta_ns : Int := deltaNs time sg_policy.last_freq_update_time
  if next_freq > sg_policy.next_freq ∧ delta_ns < sg_policy.up_rate_delay_ns then
    true
  else if next_freq < sg_policy.next_freq ∧ delta_ns < sg_policy.down_rate_delay_ns then
    true
  else
    false

/-- `freqvar_tipping_point` (the `CONFIG_FREQVAR_TUNE`-disabled inline):
`freq + (freq >> 2)` in `unsigned int` arithmetic. -/
def freqvar_tipping_point (freq : Nat) : Nat :=
  (freq + freq / 4) % (UINT_MAX + 1)

/-- Lowest element of a list that is `≥ t`, if any. -/
def lowestGE (t : Nat) : List Nat → Option Nat
  | [] => none
  | f :: fs =>
    match lowestGE t fs with
    | none => if t ≤ f then some f else none
    | some g => if t ≤ f then some (min f g) else some g

/-- Modelled from the spec: `cpufreq_driver_resolve_freq` (cpufreq core,
not part of the analysed source) resolves a raw target "to the lowest
hardware-supported frequency ≥ candidate, clamped to the group's
configured min/max".  When the clamped target is above every table entry,
the highest supported frequency is returned. -/
def cpufreq_driver_resolve_freq (policy : CpufreqPolicy) (target_freq : Nat) :
    Nat :=
  let t := Nat.max policy.min (Nat.min target_freq policy.max)
  match lowestGE t policy.freq_table with
  | some f => f
  | none => policy.freq_table.foldr Nat.max 0

/-- The reference frequency of `get_next_freq`:
`arch_scale_freq_invariant() ? policy->max : policy->cur`.  The
architecture predicate is an external collaborator, passed as `arch_inv`. -/
def ref_freq (sg_policy : SugovPolicy) (arch_inv : Bool) : Nat :=
  if arch_inv then sg_policy.policy.max else sg_policy.policy.cur

/-- The raw candidate computed by `get_next_freq`:
`freq = freqvar_tipping_point(cpu, freq) * util / max` where the
multiplication is performed in `u64` and the result is stored back into a
`u32`. -/
def raw_candidate (fref util max : Nat) : Nat :=
  (freqvar_tipping_point fref * util % U64_MOD / max) % (UINT_MAX + 1)

/-- `get_next_freq`: compute a new frequency for the policy; returns the
resolved frequency and the updated policy state (the raw-candidate
cache).  The cache store does not affect the `policy` argument of the
driver resolution, so the two statements of the C body are written as one
expression per branch. -/
def get_next_freq (sg_policy : SugovPolicy) (arch_inv : Bool)
    (util max : Nat) : Nat × SugovPolicy :=
  if raw_candidate (ref_freq sg_policy arch_inv) util max =
        sg_policy.cached_raw_freq ∧ sg_policy.next_freq ≠ UINT_MAX then
    (sg_policy.next_freq, sg_policy)
  else
    (cpufreq_driver_resolve_freq sg_policy.policy
       (raw_candidate (ref_freq sg_policy arch_inv) util max),
     { sg_policy with
         cached_raw_freq := raw_candidate (ref_freq sg_policy arch_inv) util max })

/-- `sugov_set_iowait_boost`: sampling intake of the iowait boost,
including the final hard-coded suppression
(`/* HACK: block iowait boost to avoid unnecessary setting max frequency */`). -/
def sugov_set_iowait_boost (sg_cpu : SugovCpu) (time : Nat) (flags : Nat) :
    SugovCpu :=
  { (if flags &&& SCHED_CPUFREQ_IOWAIT ≠ 0 then
       { sg_cpu with iowait_boost := sg_cpu.iowait_boost_max }
     else if sg_cpu.iowait_boost ≠ 0 ∧
         deltaNs time sg_cpu.last_update > (TICK_NSEC : Int) then
       { sg_cpu with iowait_boost := 0 }
     else sg_cpu)
    with iowait_boost := 0 }

/-- `sugov_iowait_boost`: possibly substitute the boost pair for the
`(util, max)` pair, then halve the boost; returns the adjusted pair and
the updated per-core state. -/
def sugov_iowait_boost (sg_cpu : SugovCpu) (util max : Nat) :
    (Nat × Nat) × SugovCpu :=
  let boost_util := sg_cpu.iowait_boost
  let boost_max := sg_cpu.iowait_boost_max
  if boost_util = 0 then ((util, max), sg_cpu)
  else
    let p := if util * boost_max < max * boost_util then (boost_util, boost_max)
             else (util, max)
    (p, { sg_cpu with iowait_boost := sg_cpu.iowait_boost / 2 })

/-- `sugov_cpu_is_busy`: the core is busy iff the externally supplied
idle-transition counter equals the saved one; the saved counter is
updated either way. -/
def sugov_cpu_is_busy (sg_cpu : SugovCpu) (idle_calls : Nat) :
    Bool × SugovCpu :=
  (decide (idle_calls = sg_cpu.saved_idle_calls),
   { sg_cpu with saved_idle_calls := idle_calls })

/-- `sugov_update_commit`: direction-wise rate limiting, no-op on an
unchanged target, then dispatch through the fast path or the deferred
worker.  `fast_switch` is the external driver's non-blocking apply
(modelled from the spec: `apply_fast(domain, frequency) ->
applied_frequency | rejected`; the analysed source stubs it out).
`scaling_cpu_ok` abstracts `sugov_select_scaling_cpu() >= 0`.  Returns the
updated state and the hardware call made, if any. -/
def sugov_update_commit (fast_switch : Nat → Nat) (scaling_cpu_ok : Bool)
    (sg_policy : SugovPolicy) (time : Nat) (next_freq : Nat) :
    SugovPolicy × Option DriverCall :=
  if sugov_up_down_rate_limit sg_policy time next_freq then
    ({ sg_policy with cached_raw_freq := 0 }, none)
  else if sg_policy.next_freq = next_freq then
    (sg_policy, none)
  else if sg_policy.policy.fast_switch_enabled then
    if fast_switch next_freq = CPUFREQ_ENTRY_INVALID then
      ({ sg_policy with next_freq := next_freq,
                        last_freq_update_time := time },
       some (DriverCall.fast next_freq))
    else
      ({ sg_policy with next_freq := next_freq,
                        last_freq_update_time := time,
                        policy.cur := fast_switch next_freq },
       some (DriverCall.fast next_freq))
  else if scaling_cpu_ok then
    ({ sg_policy with next_freq := next_freq,
                      last_freq_update_time := time,
                      work_in_progress := true },
     some (DriverCall.queued next_freq))
  else
    ({ sg_policy with next_freq := next_freq,
                      last_freq_update_time := time }, none)

/-- `sugov_update_single`: the unshared-policy sampling entry point.
`util`/`max` are the values produced by `sugov_get_util` (external
utilization source) and `idle_calls` the external idle-transition
counter. -/
def sugov_update_single (fast_switch : Nat → Nat) (scaling_cpu_ok : Bool)
    (arch_inv : Bool) (sg_policy : SugovPolicy) (sg_cpu : SugovCpu)
    (time flags idle_calls util max : Nat) :
    SugovPolicy × SugovCpu × Option DriverCall :=
  let sg_cpu1 := { sugov_set_iowait_boost sg_cpu time flags with
                     last_update := time }
  let gate := sugov_should_update_freq sg_policy time
  if ¬ gate.1 then (gate.2, sg_cpu1, none)
  else
    let busy := sugov_cpu_is_busy sg_cpu1 idle_calls
    if flags &&& SCHED_CPUFREQ_DL ≠ 0 then
      let c := sugov_update_commit fast_switch scaling_cpu_ok gate.2 time
                 gate.2.policy.cpuinfo_max_freq
      (c.1, busy.2, c.2)
    else
      let b := sugov_iowait_boost busy.2 util max
      let g := get_next_freq gate.2 arch_inv b.1.1 b.1.2
      if busy.1 ∧ g.1 < g.2.next_freq then
        let c := sugov_update_commit fast_switch scaling_cpu_ok
                   { g.2 with cached_raw_freq := 0 } time g.2.next_freq
        (c.1, b.2, c.2)
      else
        let c := sugov_update_commit fast_switch scaling_cpu_ok g.2 time g.1
        (c.1, b.2, c.2)

/-- The loop body state threading of `sugov_next_freq_shared`: iterate
over the online members of the policy (given as a list of their
`sugov_cpu` records), carrying the running `(util, max)` aggregate.
Returns `none` when a deadline-class core short-circuits the aggregation,
otherwise the final aggregate, together with the updated per-core
records. -/
def shared_loop (time : Nat) : List SugovCpu → Nat → Nat →
    Option (Nat × Nat) × List SugovCpu
  | [], util, max => (some (util, max), [])
  | j :: rest, util, max =>
    if deltaNs time j.last_update > (TICK_NSEC : Int) then
      let r := shared_loop time rest util max
      (r.1, { j with iowait_boost := 0 } :: r.2)
    else if j.flags &&& SCHED_CPUFREQ_DL ≠ 0 then
      (none, j :: rest)
    else
      let p := if j.util * max > j.max * util then (j.util, j.max)
               else (util, max)
      let b := sugov_iowait_boost j p.1 p.2
      let r := shared_loop time rest b.1.1 b.1.2
      (r.1, b.2 :: r.2)

/-- `sugov_next_freq_shared`: aggregate all online member cores and feed
the winning pair into `get_next_freq`; a deadline-class core forces the
domain's maximum frequency.  Returns the frequency, the updated policy
state and the updated per-core records. -/
def sugov_next_freq_shared (arch_inv : Bool) (sg_policy : SugovPolicy)
    (cpus : List SugovCpu) (time : Nat) : Nat × SugovPolicy × List SugovCpu :=
  match shared_loop time cpus 0 1 with
  | (none, cpus) => (sg_policy.policy.cpuinfo_max_freq, sg_policy, cpus)
  | (some (util, max), cpus) =>
    ((get_next_freq sg_policy arch_inv util max).1,
     (get_next_freq sg_policy arch_inv util max).2, cpus)

/-- The iowait-boost substitution applied to a core's own sample pair, as
the spec words it: "if boost > 0 and `u*boost_max < c*boost` ...,
substitute `(boost, boost_max)` for `(u, c)`". -/
def iowaitBoostedPair (j : SugovCpu) : Nat × Nat :=
  if j.iowait_boost ≠ 0 ∧ j.util * j.iowait_boost_max < j.max * j.iowait_boost
  then (j.iowait_boost, j.iowait_boost_max)
  else (j.util, j.max)

/-- The aggregation loop as the spec words it: each core's iowait-boost
substitution is applied to that core's own pair *before* the
cross-multiplication comparison with the running aggregate; stale cores
are skipped with their boost cleared; a deadline-class core
short-circuits; every participating core's boost is halved after use. -/
def shared_loop_spec (time : Nat) : List SugovCpu → Nat → Nat →
    Option (Nat × Nat) × List SugovCpu
  | [], util, max => (some (util, max), [])
  | j :: rest, util, max =>
    if deltaNs time j.last_update > (TICK_NSEC : Int) then
      let r := shared_loop_spec time rest util max
      (r.1, { j with iowait_boost := 0 } :: r.2)
    else if j.flags &&& SCHED_CPUFREQ_DL ≠ 0 then
      (none, j :: rest)
    else
      let p := if (iowaitBoostedPair j).1 * max > (iowaitBoostedPair j).2 * util
               then iowaitBoostedPair j else (util, max)
      let r := shared_loop_spec time rest p.1 p.2
      (r.1, { j with iowait_boost := j.iowait_boost / 2 } :: r.2)

/-- The shared-policy frequency selection as the spec words it. -/
def sugov_next_freq_shared_spec (arch_inv : Bool) (sg_policy : SugovPolicy)
    (cpus : List SugovCpu) (time : Nat) : Nat × SugovPolicy × List SugovCpu :=
  match shared_loop_spec time cpus 0 1 with
  | (none, cpus) => (sg_policy.policy.cpuinfo_max_freq, sg_policy, cpus)
  | (some (util, max), cpus) =>
    ((get_next_freq sg_policy arch_inv util max).1,
     (get_next_freq sg_policy arch_inv util max).2, cpus)

/-- `sugov_update_shared`: the shared-policy sampling entry point. -/
def sugov_update_shared (fast_switch : Nat → Nat) (scaling_cpu_ok : Bool)
    (arch_inv : Bool) (sg_policy : SugovPolicy) (sg_cpu : SugovCpu)
    (others : List SugovCpu) (time flags util max : Nat) :
    SugovPolicy × SugovCpu × List SugovCpu × Option DriverCall :=
  let sg_cpu1 := { sugov_set_iowait_boost
                     { sg_cpu with util := util, max := max, flags := flags }
                     time flags with last_update := time }
  let gate := sugov_should_update_freq sg_policy time
  if gate.1 then
    if flags &&& SCHED_CPUFREQ_DL ≠ 0 then
      let c := sugov_update_commit fast_switch scaling_cpu_ok gate.2 time
                 gate.2.policy.cpuinfo_max_freq
      (c.1, sg_cpu1, others, c.2)
    else
      let n := sugov_next_freq_shared arch_inv gate.2 others time
      let c := sugov_update_commit fast_switch scaling_cpu_ok n.2.1 time n.1
      (c.1, sg_cpu1, n.2.2, c.2)
  else (gate.2, sg_cpu1, others, none)

/-- `struct sugov_exynos`: the per-core fields consulted by the PM-QoS
min-floor path (`qos_min_class`), plus the core's membership in the
active mask (external `cpu_active_mask`). -/
structure SugovExynos where
  qos_min_class : Int
  active : Bool
deriving Repr, DecidableEq

/-- Notifier return values (`NOTIFY_OK` / `NOTIFY_BAD`). -/
inductive NotifierResult where
  | ok
  | bad
deriving Repr, DecidableEq

/-- `find_cpu_pm_qos_class`: first possible cpu whose
`sugov_exynos.qos_min_class` matches the class and which is in the active
mask; `-EINVAL` (= -22) when none. -/
def find_cpu_pm_qos_class (cpus : List (Nat × SugovExynos))
    (pm_qos_class : Int) : Int :=
  match cpus.find? (fun c => c.2.qos_min_class = pm_qos_class ∧ c.2.active) with
  | some c => (c.1 : Int)
  | none => -22

/-- The environment of `sugov_pm_qos_callback`: the per-cpu exynos
records, the per-cpu `sugov_cpu -> sg_policy` chain (`none` models the
NULL checks failing) and `cpufreq_cpu_get` (`none` models a NULL
policy). -/
structure QosEnv where
  exynos : List (Nat × SugovExynos)
  sg_policy_of : Nat → Option SugovPolicy
  cpufreq_cpu_get : Nat → Option CpufreqPolicy

/-- `sugov_pm_qos_callback`: react to a min-floor change `val` for
`pm_qos_class`; returns the notifier result and the blocking hardware
call made, if any. -/
def sugov_pm_qos_callback (env : QosEnv) (val : Nat) (pm_qos_class : Int) :
    NotifierResult × Option DriverCall :=
  let cpu := find_cpu_pm_qos_class env.exynos pm_qos_class
  if cpu < 0 then (NotifierResult.bad, none)
  else
    match env.sg_policy_of cpu.toNat with
    | none => (NotifierResult.bad, none)
    | some sg_policy =>
      let next_freq := sg_policy.next_freq
      match env.cpufreq_cpu_get cpu.toNat with
      | none => (NotifierResult.bad, none)
      | some policy =>
        if val ≥ policy.cur then (NotifierResult.bad, none)
        else (NotifierResult.ok, some (DriverCall.blocking next_freq))

/-! Concrete states used by witnesses and counterexamples. -/

/-- A concrete policy: current frequency 400, table 100/200/500/1000. -/
def polEx : CpufreqPolicy :=
  { cur := 400, min := 100, max := 1000, cpuinfo_max_freq := 1000,
    fast_switch_enabled := false, freq_table := [100, 200, 500, 1000] }

/-- A concrete governor state with committed target 300. -/
def sgpEx : SugovPolicy :=
  { policy := polEx, last_freq_update_time := 0,
    min_rate_limit_ns := 2000000, up_rate_delay_ns := 2000000,
    down_rate_delay_ns := 20000000, next_freq := 300, cached_raw_freq := 0,
    work_in_progress := false, need_freq_update := false }

/-- A concrete per-core sample state with a pending boost of 512. -/
def cpuEx : SugovCpu :=
  { iowait_boost := 512, iowait_boost_max := 1024, last_update := 0,
    util := 0, max := 1024, flags := 0, saved_idle_calls := 0 }

/-- A concrete PM-QoS environment: cpu 0 is active in class 5, its group
has committed target 300 and the domain currently runs at 400. -/
def qosEnvEx : QosEnv :=
  { exynos := [(0, { qos_min_class := 5, active := true })],
    sg_policy_of := fun _ => some sgpEx,
    cpufreq_cpu_get := fun _ => some polEx }

/-- C1: the claim as stated is false on the code.  At the concrete sample
state `cpuEx` (boost 512, configured maximum 1024, previous update at
time 0): a sample at time 1000 carrying the I/O-wait flag leaves the
boost at 0, not at the configured maximum 1024; and a sample at time 1000
without the flag clears the boost to 0 even though the elapsed time
1000 ns does not exceed one tick period. -/
theorem C1_counterexample :
    (sugov_set_iowait_boost cpuEx 1000 SCHED_CPUFREQ_IOWAIT).iowait_boost ≠
      cpuEx.iowait_boost_max
    ∧ (sugov_set_iowait_boost cpuEx 1000 0).iowait_boost = 0
    ∧ ¬ (deltaNs 1000 cpuEx.last_update > (TICK_NSEC : Int)) := by
  refine ⟨by decide, by decide, by decide⟩

/-- C1 (amended): the sampling intake always leaves the iowait boost at
zero upon return, whatever the flags and elapsed time: the I/O-wait and
staleness branches compute a boost value, but the hard-coded suppression
(`/* HACK: block iowait boost ... */`) then clears it unconditionally. -/
theorem C1_amended_always_zero (sg_cpu : SugovCpu) (time flags : Nat) :
    (sugov_set_iowait_boost sg_cpu time flags).iowait_boost = 0 := by
  unfold sugov_set_iowait_boost
  split <;> simp

/-- C2: the claim as stated is false on the code: in `qosEnvEx` (current
frequency 400, committed target 300, class 5 resolving to the single
active cpu 0), a floor raised to 500 — above the current frequency —
triggers zero hardware calls, and a floor lowered to 250 — below the
current frequency — triggers exactly one blocking call; the claim states
the two directions the other way round. -/
theorem C2_counterexample :
    (500 > polEx.cur ∧
      sugov_pm_qos_callback qosEnvEx 500 5 = (NotifierResult.bad, none))
    ∧ (250 < polEx.cur ∧
      sugov_pm_qos_callback qosEnvEx 250 5 =
        (NotifierResult.ok, some (DriverCall.blocking 300))) := by
  refine ⟨⟨by decide, by decide⟩, ⟨by decide, by decide⟩⟩

/-- C2 (amended): when the min-floor notification resolves its class to
an active core whose policy chain is intact, a new floor value strictly
below the policy's current frequency triggers exactly one blocking apply
call, carrying the group's last-committed target; a floor value at or
above the current frequency triggers zero hardware calls. -/
theorem C2_amended_floor_direction (env : QosEnv) (val : Nat) (cls : Int)
    (c : Nat) (sgp : SugovPolicy) (policy : CpufreqPolicy)
    (hfind : find_cpu_pm_qos_class env.exynos cls = (c : Int))
    (hsg : env.sg_policy_of c = some sgp)
    (hpol : env.cpufreq_cpu_get c = some policy) :
    (val < policy.cur →
      (sugov_pm_qos_callback env val cls).2 =
        some (DriverCall.blocking sgp.next_freq))
    ∧ (policy.cur ≤ val → (sugov_pm_qos_callback env val cls).2 = none) := by
  have hc : ¬ ((c : Int) < 0) := by exact_mod_cast Int.not_lt.mpr (Int.ofNat_nonneg c)
  constructor
  · intro hlt
    unfold sugov_pm_qos_callback
    rw [hfind, if_neg hc]
    simp only [Int.toNat_ofNat, hsg, hpol]
    rw [if_neg (by omega)]
  · intro hge
    unfold sugov_pm_qos_callback
    rw [hfind, if_neg hc]
    simp only [Int.toNat_ofNat, hsg, hpol]
    rw [if_pos (by omega)]

/-- C2 (amended) at a concrete input: in `qosEnvEx`, floor 250 below the
current frequency 400 yields exactly the blocking call with the committed
target 300, and floor 500 at-or-above yields no call. -/
theorem C2_amended_floor_direction_witness :
    (sugov_pm_qos_callback qosEnvEx 250 5).2 =
      some (DriverCall.blocking sgpEx.next_freq)
    ∧ (sugov_pm_qos_callback qosEnvEx 500 5).2 = none :=
  ⟨(C2_amended_floor_direction qosEnvEx 250 5 0 sgpEx polEx rfl rfl rfl).1
      (by decide),
   (C2_amended_floor_direction qosEnvEx 500 5 0 sgpEx polEx rfl rfl rfl).2
      (by decide)⟩

/-- C7: the min-floor handler resolves the class to an active core whose
`qos_min_class` matches, and — only when the new floor is strictly below
the domain's current frequency — makes the single blocking hardware call
with the group's last-committed target (not the floor value); when the
floor is at or above the current frequency it performs no hardware
action. -/
theorem C7_min_floor_enforcer (env : QosEnv) (val : Nat) (cls : Int)
    (c : Nat) (sgp : SugovPolicy) (policy : CpufreqPolicy)
    (hfind : find_cpu_pm_qos_class env.exynos cls = (c : Int))
    (hsg : env.sg_policy_of c = some sgp)
    (hpol : env.cpufreq_cpu_get c = some policy) :
    (∃ ex, (c, ex) ∈ env.exynos ∧ ex.qos_min_class = cls ∧ ex.active = true)
    ∧ (val < policy.cur →
        sugov_pm_qos_callback env val cls =
          (NotifierResult.ok, some (DriverCall.blocking sgp.next_freq)))
    ∧ (policy.cur ≤ val →
        sugov_pm_qos_callback env val cls = (NotifierResult.bad, none)) := by
  have hc : ¬ ((c : Int) < 0) := by exact_mod_cast Int.not_lt.mpr (Int.ofNat_nonneg c)
  refine ⟨?_, ?_, ?_⟩
  · unfold find_cpu_pm_qos_class at hfind
    cases hf : List.find? (fun cc => decide (cc.2.qos_min_class = cls ∧ cc.2.active))
        env.exynos with
    | none =>
      exfalso
      rw [hf] at hfind
      change (-22 : Int) = (c : Int) at hfind
      omega
    | some cc =>
      rw [hf] at hfind
      change ((cc.1 : Nat) : Int) = (c : Int) at hfind
      have hcc : cc.1 = c := by exact_mod_cast hfind
      have hmem := List.mem_of_find?_eq_some hf
      have hp := List.find?_some hf
      simp only [decide_eq_true_eq] at hp
      refine ⟨cc.2, ?_, hp.1, hp.2⟩
      rw [← hcc]
      exact hmem
  · intro hlt
    unfold sugov_pm_qos_callback
    rw [hfind, if_neg hc]
    simp only [Int.toNat_ofNat, hsg, hpol]
    rw [if_neg (by omega)]
  · intro hge
    unfold sugov_pm_qos_callback
    rw [hfind, if_neg hc]
    simp only [Int.toNat_ofNat, hsg, hpol]
    rw [if_pos (by omega)]

/-- C7 at a concrete input: in `qosEnvEx` the class resolves to active
cpu 0; floor 250 below the current frequency 400 forces the blocking call
with committed target 300, floor 500 does nothing. -/
theorem C7_min_floor_enforcer_witness :
    (∃ ex, ((0 : Nat), ex) ∈ qosEnvEx.exynos ∧ ex.qos_min_class = 5 ∧
      ex.active = true)
    ∧ sugov_pm_qos_callback qosEnvEx 250 5 =
        (NotifierResult.ok, some (DriverCall.blocking 300))
    ∧ sugov_pm_qos_callback qosEnvEx 500 5 = (NotifierResult.bad, none) :=
  ⟨(C7_min_floor_enforcer qosEnvEx 250 5 0 sgpEx polEx rfl rfl rfl).1,
   (C7_min_floor_enforcer qosEnvEx 250 5 0 sgpEx polEx rfl rfl rfl).2.1
      (by decide),
   (C7_min_floor_enforcer qosEnvEx 500 5 0 sgpEx polEx rfl rfl rfl).2.2
      (by decide)⟩

/-- C6: the should-update gate: an in-flight deferred apply skips
recomputation; otherwise a set forced-recompute flag invalidates the
committed target to the `UINT_MAX` sentinel, clears the flag, and passes
unconditionally; otherwise the gate passes exactly when the elapsed time
since the last applied change reaches the derived minimum delay. -/
theorem C6_should_update_gate (sg_policy : SugovPolicy) (time : Nat) :
    (sg_policy.work_in_progress = true →
      sugov_should_update_freq sg_policy time = (false, sg_policy))
    ∧ (sg_policy.work_in_progress = false → sg_policy.need_freq_update = true →
      sugov_should_update_freq sg_policy time =
        (true, { sg_policy with need_freq_update := false,
                                next_freq := UINT_MAX }))
    ∧ (sg_policy.work_in_progress = false → sg_policy.need_freq_update = false →
      sugov_should_update_freq sg_policy time =
        (decide (deltaNs time sg_policy.last_freq_update_time ≥
                  sg_policy.min_rate_limit_ns), sg_policy)) := by
  refine ⟨?_, ?_, ?_⟩ <;> intro h1 <;>
    first
      | (intro h2; unfold sugov_should_update_freq; rw [h1, h2]; simp)
      | (unfold sugov_should_update_freq; rw [h1]; simp)

/-- C6 at a concrete input: with the forced-recompute flag set and a
sample arriving only 100 ns after the last change (far inside the
2 ms minimum-delay window of `sgpEx`), the gate passes, the committed
target is invalidated to the sentinel and the flag is cleared. -/
theorem C6_should_update_gate_witness :
    sugov_should_update_freq
        { sgpEx with need_freq_update := true } 100 =
      (true, { sgpEx with need_freq_update := false, next_freq := UINT_MAX }) :=
  (C6_should_update_gate { sgpEx with need_freq_update := true } 100).2.1
    rfl rfl

/-! Helper lemmas about the embedded operations. -/

/-- The sampling intake rewrites to a plain clearing of the boost: every
branch only touches `iowait_boost`, and the trailing suppression
overwrites it with zero. -/
theorem set_iowait_boost_eq (sg_cpu : SugovCpu) (time flags : Nat) :
    sugov_set_iowait_boost sg_cpu time flags =
      { sg_cpu with iowait_boost := 0 } := by
  unfold sugov_set_iowait_boost
  split_ifs <;> rfl

/-- Committing the already-committed target is a no-op that makes no
hardware call. -/
theorem update_commit_self (fs : Nat → Nat) (ok : Bool) (sg : SugovPolicy)
    (time : Nat) :
    sugov_update_commit fs ok sg time sg.next_freq = (sg, none) := by
  unfold sugov_update_commit sugov_up_down_rate_limit
  simp

/-- A core whose externally observed idle-call counter equals the saved
one is busy; the saved counter is rewritten in place. -/
theorem cpu_is_busy_self (c : SugovCpu) :
    sugov_cpu_is_busy c c.saved_idle_calls = (true, c) := by
  unfold sugov_cpu_is_busy
  simp

/-- With no pending boost, `sugov_iowait_boost` passes the sample pair
through unchanged. -/
theorem iowait_boost_zero (c : SugovCpu) (h : c.iowait_boost = 0)
    (u m : Nat) : sugov_iowait_boost c u m = ((u, m), c) := by
  unfold sugov_iowait_boost
  dsimp only
  rw [if_pos h]

/-- `get_next_freq` leaves every policy field except the raw-candidate
cache unchanged. -/
theorem get_next_freq_frame (sg : SugovPolicy) (arch_inv : Bool)
    (util mx : Nat) :
    (get_next_freq sg arch_inv util mx).2.next_freq = sg.next_freq ∧
    (get_next_freq sg arch_inv util mx).2.last_freq_update_time =
      sg.last_freq_update_time ∧
    (get_next_freq sg arch_inv util mx).2.policy = sg.policy := by
  unfold get_next_freq
  split_ifs <;> simp

/-- C4: a target is committed (the stored target changes) only when it is
increasing and the elapsed time since the last commit is at least the
up-delay, or decreasing and the elapsed time is at least the down-delay;
a target blocked by the rate limit resets the cached raw frequency and
changes nothing else; and concretely, with up-delay 2000 µs and
down-delay 20000 µs (`sgpEx`), an increasing target arriving 1000 µs
after the last commit is blocked while one arriving 2001 µs after is
committed. -/
theorem C4_rate_limit_gate :
    (∀ (fs : Nat → Nat) (ok : Bool) (sg : SugovPolicy) (time nf : Nat),
      (sugov_update_commit fs ok sg time nf).1.next_freq ≠ sg.next_freq →
        (sg.next_freq < nf ∧
          deltaNs time sg.last_freq_update_time ≥ sg.up_rate_delay_ns) ∨
        (nf < sg.next_freq ∧
          deltaNs time sg.last_freq_update_time ≥ sg.down_rate_delay_ns))
    ∧ (∀ (fs : Nat → Nat) (ok : Bool) (sg : SugovPolicy) (time nf : Nat),
        sugov_up_down_rate_limit sg time nf = true →
        sugov_update_commit fs ok sg time nf =
          ({ sg with cached_raw_freq := 0 }, none))
    ∧ sugov_update_commit (fun f => f) true sgpEx 1000000 500 =
        ({ sgpEx with cached_raw_freq := 0 }, none)
    ∧ (sugov_update_commit (fun f => f) true sgpEx 2001000 500).1.next_freq =
        500 := by
  refine ⟨?_, ?_, by decide, by decide⟩
  · intro fs ok sg time nf h
    by_cases hb : sugov_up_down_rate_limit sg time nf = true
    · unfold sugov_update_commit at h
      rw [if_pos hb] at h
      simp at h
    · by_cases he : sg.next_freq = nf
      · unfold sugov_update_commit at h
        rw [if_neg hb, if_pos he] at h
        simp at h
      · unfold sugov_up_down_rate_limit at hb
        set d := deltaNs time sg.last_freq_update_time with hd
        by_cases h1 : nf > sg.next_freq ∧ d < sg.up_rate_delay_ns
        · rw [if_pos h1] at hb; exact absurd rfl hb
        · rw [if_neg h1] at hb
          by_cases h2 : nf < sg.next_freq ∧ d < sg.down_rate_delay_ns
          · rw [if_pos h2] at hb; exact absurd rfl hb
          · push_neg at h1 h2
            rcases Nat.lt_or_ge nf sg.next_freq with hlt | hge
            · exact Or.inr ⟨hlt, h2 hlt⟩
            · have hgt : sg.next_freq < nf := lt_of_le_of_ne hge he
              exact Or.inl ⟨hgt, h1 hgt⟩
  · intro fs ok sg time nf hb
    unfold sugov_update_commit
    rw [if_pos hb]

/-- C4 at concrete inputs: the blocked case (1000 µs elapsed, increasing
500 over 300, up-delay 2000 µs) applied through the gate theorem, and the
only-if direction applied at the allowed case (2001 µs elapsed). -/
theorem C4_rate_limit_gate_witness :
    (sugov_update_commit (fun f => f) true sgpEx 1000000 500 =
      ({ sgpEx with cached_raw_freq := 0 }, none))
    ∧ ((sgpEx.next_freq < 500 ∧
          deltaNs 2001000 sgpEx.last_freq_update_time ≥ sgpEx.up_rate_delay_ns) ∨
       (500 < sgpEx.next_freq ∧
          deltaNs 2001000 sgpEx.last_freq_update_time ≥ sgpEx.down_rate_delay_ns)) :=
  ⟨C4_rate_limit_gate.2.1 (fun f => f) true sgpEx 1000000 500 (by decide),
   C4_rate_limit_gate.1 (fun f => f) true sgpEx 2001000 500 (by decide)⟩

/-- C8: when the fast-switch driver call returns the rejected sentinel,
the policy's externally visible current frequency is unchanged, while the
group's committed target and last-update timestamp have already advanced
to the requested value and time; consequently an identical request at any
later time is a no-op that makes no further hardware call. -/
theorem C8_fast_path_reject (fs : Nat → Nat) (ok : Bool) (sg : SugovPolicy)
    (time t2 nf : Nat)
    (hfast : sg.policy.fast_switch_enabled = true)
    (hrej : fs nf = CPUFREQ_ENTRY_INVALID)
    (hnb : sugov_up_down_rate_limit sg time nf = false)
    (hne : sg.next_freq ≠ nf) :
    (sugov_update_commit fs ok sg time nf).1.policy.cur = sg.policy.cur
    ∧ (sugov_update_commit fs ok sg time nf).1.next_freq = nf
    ∧ (sugov_update_commit fs ok sg time nf).1.last_freq_update_time = time
    ∧ sugov_update_commit fs ok (sugov_update_commit fs ok sg time nf).1 t2 nf =
        ((sugov_update_commit fs ok sg time nf).1, none) := by
  have hr : sugov_update_commit fs ok sg time nf =
      ({ sg with next_freq := nf, last_freq_update_time := time },
       some (DriverCall.fast nf)) := by
    unfold sugov_update_commit
    rw [if_neg (show ¬ sugov_up_down_rate_limit sg time nf = true by
          rw [hnb]; exact Bool.false_ne_true),
        if_neg hne, if_pos hfast, hrej, if_pos rfl]
  rw [hr]
  refine ⟨rfl, rfl, rfl, ?_⟩
  exact update_commit_self fs ok _ t2

/-- A variant of `sgpEx` with the fast-switch path enabled. -/
def sgpFastEx : SugovPolicy :=
  { sgpEx with policy := { polEx with fast_switch_enabled := true } }

/-- C8 at a concrete input: `sgpFastEx` (fast switching on, committed
target 300, current frequency 400) with a rejecting driver at requested
frequency 500 and elapsed time past the up-delay. -/
theorem C8_fast_path_reject_witness :
    (sugov_update_commit (fun _ => CPUFREQ_ENTRY_INVALID) true
        sgpFastEx 3000000 500).1.policy.cur = 400
    ∧ (sugov_update_commit (fun _ => CPUFREQ_ENTRY_INVALID) true
        sgpFastEx 3000000 500).1.next_freq = 500 :=
  ⟨(C8_fast_path_reject (fun _ => CPUFREQ_ENTRY_INVALID) true
      sgpFastEx 3000000 0 500 rfl rfl (by decide) (by decide)).1,
   (C8_fast_path_reject (fun _ => CPUFREQ_ENTRY_INVALID) true
      sgpFastEx 3000000 0 500 rfl rfl (by decide) (by decide)).2.1⟩

/-- When the tipping point and the scaled product fit their C integer
types, the raw candidate is the plain arithmetic expression
`(f_ref + f_ref/4) * util / max`. -/
theorem raw_candidate_eq (fref u m : Nat)
    (htip : fref + fref / 4 ≤ UINT_MAX)
    (hfit : (fref + fref / 4) * u < U64_MOD)
    (hfit32 : (fref + fref / 4) * u / m ≤ UINT_MAX) :
    raw_candidate fref u m = (fref + fref / 4) * u / m := by
  unfold raw_candidate freqvar_tipping_point
  rw [Nat.mod_eq_of_lt (by omega : fref + fref / 4 < UINT_MAX + 1),
      Nat.mod_eq_of_lt hfit,
      Nat.mod_eq_of_lt (by omega : (fref + fref / 4) * u / m < UINT_MAX + 1)]

/-- C3: for positive capacity, the selector computes the raw candidate
`tipping_point(f_ref) * u / c` with `tipping_point(f) = f + f/4`, where
`f_ref` is the policy maximum under frequency-invariant accounting and
the current frequency otherwise; a candidate equal to the cached raw
candidate with a committed target present returns the committed target
without resolving or changing state; otherwise the candidate is cached
and the driver-resolved lowest supported frequency at or above it is
returned. -/
theorem C3_frequency_selector (sg : SugovPolicy) (arch_inv : Bool)
    (util mx : Nat) (hmax : 0 < mx)
    (htip : ref_freq sg arch_inv + ref_freq sg arch_inv / 4 ≤ UINT_MAX)
    (hfit : (ref_freq sg arch_inv + ref_freq sg arch_inv / 4) * util < U64_MOD)
    (hfit32 : (ref_freq sg arch_inv + ref_freq sg arch_inv / 4) * util / mx ≤
      UINT_MAX) :
    (arch_inv = true → ref_freq sg arch_inv = sg.policy.max)
    ∧ (arch_inv = false → ref_freq sg arch_inv = sg.policy.cur)
    ∧ ((ref_freq sg arch_inv + ref_freq sg arch_inv / 4) * util / mx =
          sg.cached_raw_freq → sg.next_freq ≠ UINT_MAX →
        get_next_freq sg arch_inv util mx = (sg.next_freq, sg))
    ∧ (¬ ((ref_freq sg arch_inv + ref_freq sg arch_inv / 4) * util / mx =
            sg.cached_raw_freq ∧ sg.next_freq ≠ UINT_MAX) →
        get_next_freq sg arch_inv util mx =
          (cpufreq_driver_resolve_freq sg.policy
             ((ref_freq sg arch_inv + ref_freq sg arch_inv / 4) * util / mx),
           { sg with cached_raw_freq :=
               (ref_freq sg arch_inv + ref_freq sg arch_inv / 4) * util / mx })) := by
  have hcand := raw_candidate_eq (ref_freq sg arch_inv) util mx htip hfit hfit32
  refine ⟨fun h => by simp [ref_freq, h], fun h => by simp [ref_freq, h],
          ?_, ?_⟩
  · intro hhit hcommitted
    unfold get_next_freq
    rw [hcand, if_pos ⟨hhit, hcommitted⟩]
  · intro hmiss
    unfold get_next_freq
    rw [hcand, if_neg hmiss]

/-- C3 at a concrete input: `sgpEx` (policy maximum 1000, empty cache)
with utilization 100 over capacity 1024 under frequency-invariant
accounting: the candidate is 1250 * 100 / 1024 = 122, the cache misses,
and the resolved frequency is 200 (lowest table entry at or above 122). -/
theorem C3_frequency_selector_witness :
    get_next_freq sgpEx true 100 1024 =
      (cpufreq_driver_resolve_freq sgpEx.policy 122,
       { sgpEx with cached_raw_freq := 122 }) :=
  (C3_frequency_selector sgpEx true 100 1024 (by decide) (by decide)
      (by decide) (by decide)).2.2.2 (by decide)

/-! Monotonicity infrastructure for the driver frequency resolution. -/

/-- A successful `lowestGE` returns a member of the list at or above the
target. -/
theorem lowestGE_some_mem {t : Nat} :
    ∀ {l : List Nat} {g : Nat}, lowestGE t l = some g → g ∈ l ∧ t ≤ g := by
  intro l
  induction l with
  | nil => intro g h; simp [lowestGE] at h
  | cons f fs ih =>
    intro g h
    unfold lowestGE at h
    cases hfs : lowestGE t fs with
    | none =>
      simp only [hfs] at h
      by_cases hf : t ≤ f
      · rw [if_pos hf] at h
        simp only [Option.some.injEq] at h
        subst h
        exact ⟨List.mem_cons_self _ _, hf⟩
      · rw [if_neg hf] at h
        exact absurd h (by simp)
    | some g0 =>
      simp only [hfs] at h
      obtain ⟨hmem, hle⟩ := ih hfs
      by_cases hf : t ≤ f
      · rw [if_pos hf] at h
        simp only [Option.some.injEq] at h
        subst h
        by_cases hm : f ≤ g0
        · rw [min_eq_left hm]
          exact ⟨List.mem_cons_self _ _, hf⟩
        · rw [min_eq_right (le_of_not_le hm)]
          exact ⟨List.mem_cons_of_mem f hmem, hle⟩
      · rw [if_neg hf] at h
        simp only [Option.some.injEq] at h
        subst h
        exact ⟨List.mem_cons_of_mem f hmem, hle⟩

/-- Raising the target can only raise (or drop to `none`) the result of
`lowestGE`: whenever the higher target finds an entry, the lower target
finds one that is no larger. -/
theorem lowestGE_mono {t1 t2 : Nat} (h12 : t1 ≤ t2) :
    ∀ {l : List Nat} {g2 : Nat}, lowestGE t2 l = some g2 →
      ∃ g1, lowestGE t1 l = some g1 ∧ g1 ≤ g2 := by
  intro l
  induction l with
  | nil => intro g2 h; simp [lowestGE] at h
  | cons f fs ih =>
    intro g2 h
    unfold lowestGE at h ⊢
    cases hfs2 : lowestGE t2 fs with
    | none =>
      simp only [hfs2] at h
      by_cases hf2 : t2 ≤ f
      · rw [if_pos hf2] at h
        simp only [Option.some.injEq] at h
        subst h
        have hf1 : t1 ≤ f := le_trans h12 hf2
        cases hfs1 : lowestGE t1 fs with
        | none =>
          refine ⟨f, ?_, le_refl f⟩
          simp [hf1]
        | some g1 =>
          refine ⟨min f g1, ?_, min_le_left f g1⟩
          simp [hf1]
      · rw [if_neg hf2] at h
        exact absurd h (by simp)
    | some g2f =>
      simp only [hfs2] at h
      obtain ⟨g1f, hg1f, hle⟩ := ih hfs2
      simp only [hg1f]
      by_cases hf2 : t2 ≤ f
      · rw [if_pos hf2] at h
        simp only [Option.some.injEq] at h
        subst h
        have hf1 : t1 ≤ f := le_trans h12 hf2
        refine ⟨min f g1f, ?_, min_le_min (le_refl f) hle⟩
        simp [hf1]
      · rw [if_neg hf2] at h
        simp only [Option.some.injEq] at h
        subst h
        by_cases hf1 : t1 ≤ f
        · refine ⟨min f g1f, ?_, le_trans (min_le_right f g1f) hle⟩
          simp [hf1]
        · refine ⟨g1f, ?_, hle⟩
          simp [hf1]

/-- Every member of a list is bounded by its `foldr Nat.max 0`. -/
theorem le_foldr_max {a : Nat} :
    ∀ {l : List Nat}, a ∈ l → a ≤ l.foldr Nat.max 0 := by
  intro l
  induction l with
  | nil => intro h; cases h
  | cons f fs ih =>
    intro h
    rcases List.mem_cons.mp h with h | h
    · subst h; exact Nat.le_max_left a _
    · exact le_trans (ih h) (Nat.le_max_right f _)

/-- The modelled driver resolution is monotone in the raw target. -/
theorem resolve_freq_mono (p : CpufreqPolicy) {c1 c2 : Nat} (h : c1 ≤ c2) :
    cpufreq_driver_resolve_freq p c1 ≤ cpufreq_driver_resolve_freq p c2 := by
  simp only [cpufreq_driver_resolve_freq]
  have ht : Nat.max p.min (Nat.min c1 p.max) ≤ Nat.max p.min (Nat.min c2 p.max) :=
    max_le_max (le_refl p.min) (min_le_min h (le_refl p.max))
  cases h2 : lowestGE (Nat.max p.min (Nat.min c2 p.max)) p.freq_table with
  | some g2 =>
    obtain ⟨g1, hg1, hle⟩ := lowestGE_mono ht h2
    rw [hg1]
    exact hle
  | none =>
    cases h1 : lowestGE (Nat.max p.min (Nat.min c1 p.max)) p.freq_table with
    | some g1 =>
      simp only []
      exact le_foldr_max (lowestGE_some_mem h1).1
    | none => exact le_refl _

/-- C9: the claim as stated is false on the code.  With the cache state
fixed at cached raw candidate 0 and committed target 500 (a state the
code itself produces when a rate-limited commit resets the cache),
utilization 0 hits the cache and returns the committed 500, while the
larger utilization 100 misses and resolves to 200: the returned frequency
decreases although utilization increased. -/
theorem C9_counterexample :
    (0 : Nat) ≤ 100
    ∧ (get_next_freq { sgpEx with next_freq := 500 } true 0 1024).1 = 500
    ∧ (get_next_freq { sgpEx with next_freq := 500 } true 100 1024).1 = 200
    ∧ ¬ ((get_next_freq { sgpEx with next_freq := 500 } true 0 1024).1 ≤
         (get_next_freq { sgpEx with next_freq := 500 } true 100 1024).1) := by
  refine ⟨by decide, by decide, by decide, by decide⟩

/-- C9 (amended): for `u1 ≤ u2` at fixed capacity, reference frequency
and cache state, the selector is monotone provided the cache state is
consistent — the committed target is either the unknown sentinel or the
driver-resolved value of the cached raw candidate — and the candidate
arithmetic stays within the C integer ranges. -/
theorem C9_selector_monotone (sg : SugovPolicy) (arch_inv : Bool)
    (u1 u2 mx : Nat) (h12 : u1 ≤ u2)
    (hfit : freqvar_tipping_point (ref_freq sg arch_inv) * u2 < U64_MOD)
    (hfit32 : freqvar_tipping_point (ref_freq sg arch_inv) * u2 / mx ≤ UINT_MAX)
    (hinv : sg.next_freq = UINT_MAX ∨
      sg.next_freq = cpufreq_driver_resolve_freq sg.policy sg.cached_raw_freq) :
    (get_next_freq sg arch_inv u1 mx).1 ≤ (get_next_freq sg arch_inv u2 mx).1 := by
  have hmul : freqvar_tipping_point (ref_freq sg arch_inv) * u1 ≤
      freqvar_tipping_point (ref_freq sg arch_inv) * u2 :=
    Nat.mul_le_mul_left _ h12
  have hdiv : freqvar_tipping_point (ref_freq sg arch_inv) * u1 / mx ≤
      freqvar_tipping_point (ref_freq sg arch_inv) * u2 / mx :=
    Nat.div_le_div_right hmul
  have h1 : raw_candidate (ref_freq sg arch_inv) u1 mx =
      freqvar_tipping_point (ref_freq sg arch_inv) * u1 / mx := by
    unfold raw_candidate
    rw [Nat.mod_eq_of_lt (lt_of_le_of_lt hmul hfit),
        Nat.mod_eq_of_lt (by omega : freqvar_tipping_point
          (ref_freq sg arch_inv) * u1 / mx < UINT_MAX + 1)]
  have h2 : raw_candidate (ref_freq sg arch_inv) u2 mx =
      freqvar_tipping_point (ref_freq sg arch_inv) * u2 / mx := by
    unfold raw_candidate
    rw [Nat.mod_eq_of_lt hfit,
        Nat.mod_eq_of_lt (by omega : freqvar_tipping_point
          (ref_freq sg arch_inv) * u2 / mx < UINT_MAX + 1)]
  unfold get_next_freq
  rw [h1, h2]
  split_ifs with hA hB hB
  · exact le_refl _
  · rcases hinv with hs | hs
    · exact absurd hs hA.2
    · simp only []
      rw [hs, ← hA.1]
      exact resolve_freq_mono sg.policy hdiv
  · rcases hinv with hs | hs
    · exact absurd hs hB.2
    · simp only []
      rw [hs, ← hB.1]
      exact resolve_freq_mono sg.policy hdiv
  · exact resolve_freq_mono sg.policy hdiv

/-- C9 (amended) at a concrete input: with no committed target (the
sentinel), utilizations 50 ≤ 100 at capacity 1024 and reference frequency
1000 give monotone results. -/
theorem C9_selector_monotone_witness :
    (get_next_freq { sgpEx with next_freq := UINT_MAX } true 50 1024).1 ≤
    (get_next_freq { sgpEx with next_freq := UINT_MAX } true 100 1024).1 :=
  C9_selector_monotone { sgpEx with next_freq := UINT_MAX } true 50 100 1024
    (by decide) (by decide) (by decide) (Or.inl rfl)

/-- C10: on a single-core policy whose core has had no idle transitions
since the previous evaluation (the saved idle-call counter is unchanged),
when the gate passes, the sample is not deadline-class and the freshly
computed target is lower than the committed one, the update keeps the
committed target (the frequency is not reduced), resets the cached raw
frequency to zero, commits nothing (the timestamp is untouched) and makes
no hardware call. -/
theorem C10_busy_no_reduction (fs : Nat → Nat) (ok arch_inv : Bool)
    (sg : SugovPolicy) (sg_cpu : SugovCpu)
    (time flags idle_calls util mx : Nat)
    (hwip : sg.work_in_progress = false)
    (hneed : sg.need_freq_update = false)
    (hgate : deltaNs time sg.last_freq_update_time ≥ sg.min_rate_limit_ns)
    (hdl : flags &&& SCHED_CPUFREQ_DL = 0)
    (hbusy : idle_calls = sg_cpu.saved_idle_calls)
    (hlow : (get_next_freq sg arch_inv util mx).1 < sg.next_freq) :
    (sugov_update_single fs ok arch_inv sg sg_cpu time flags idle_calls
        util mx).1.next_freq = sg.next_freq
    ∧ (sugov_update_single fs ok arch_inv sg sg_cpu time flags idle_calls
        util mx).1.cached_raw_freq = 0
    ∧ (sugov_update_single fs ok arch_inv sg sg_cpu time flags idle_calls
        util mx).1.last_freq_update_time = sg.last_freq_update_time
    ∧ (sugov_update_single fs ok arch_inv sg sg_cpu time flags idle_calls
        util mx).2.2 = none := by
  subst hbusy
  have hset := set_iowait_boost_eq sg_cpu time flags
  have hgo : sugov_should_update_freq sg time = (true, sg) := by
    unfold sugov_should_update_freq
    rw [hwip, hneed]
    simp [hgate]
  have hframe := get_next_freq_frame sg arch_inv util mx
  rcases hg : get_next_freq sg arch_inv util mx with ⟨f0, sg2⟩
  rw [hg] at hframe hlow
  obtain ⟨hnf, hlt, hpol⟩ := hframe
  simp only [] at hnf hlt hpol hlow
  have hkey : sugov_update_single fs ok arch_inv sg sg_cpu time flags
      sg_cpu.saved_idle_calls util mx
      = ({ sg2 with cached_raw_freq := 0 },
         { sg_cpu with iowait_boost := 0, last_update := time }, none) := by
    unfold sugov_update_single
    rw [hset, hgo]
    dsimp only
    rw [if_neg (show ¬ ¬ (true = true) from by simp)]
    rw [cpu_is_busy_self]
    dsimp only
    rw [if_neg (show ¬ (flags &&& SCHED_CPUFREQ_DL ≠ 0) from by simp [hdl])]
    rw [iowait_boost_zero _ rfl]
    dsimp only
    rw [hg]
    dsimp only
    rw [if_pos (show true = true ∧ f0 < sg2.next_freq from
          ⟨rfl, by rw [hnf]; exact hlow⟩)]
    rw [show sugov_update_commit fs ok { sg2 with cached_raw_freq := 0 } time
          sg2.next_freq = ({ sg2 with cached_raw_freq := 0 }, none) from
        update_commit_self fs ok { sg2 with cached_raw_freq := 0 } time]
  rw [hkey]
  exact ⟨hnf, rfl, hlt, rfl⟩

/-- C10 at a concrete input: `sgpEx` (committed 300) with a busy core and
a computed target 200 < 300 keeps 300 and makes no call. -/
theorem C10_busy_no_reduction_witness :
    (sugov_update_single (fun f => f) true true sgpEx cpuEx 10000000 0 0
        100 1024).1.next_freq = sgpEx.next_freq
    ∧ (sugov_update_single (fun f => f) true true sgpEx cpuEx 10000000 0 0
        100 1024).2.2 = none :=
  ⟨(C10_busy_no_reduction (fun f => f) true true sgpEx cpuEx 10000000 0 0
      100 1024 rfl rfl (by decide) (by decide) (by decide) (by decide)).1,
   (C10_busy_no_reduction (fun f => f) true true sgpEx cpuEx 10000000 0 0
      100 1024 rfl rfl (by decide) (by decide) (by decide)
      (by decide)).2.2.2⟩

/-! Equivalence of the shared-policy aggregation with its specification
reading. -/

/-- `sugov_iowait_boost` always halves the stored boost (a zero boost
stays zero). -/
theorem iowait_boost_state (j : SugovCpu) (u m : Nat) :
    (sugov_iowait_boost j u m).2 =
      { j with iowait_boost := j.iowait_boost / 2 } := by
  unfold sugov_iowait_boost
  dsimp only
  by_cases h : j.iowait_boost = 0
  · rw [if_pos h]
    obtain ⟨a1, a2, a3, a4, a5, a6, a7⟩ := j
    simp only at h
    subst h
    simp
  · rw [if_neg h]

/-- One aggregation step of the code (compare the raw pair against the
running aggregate, then apply the boost substitution to the winner)
produces the same pair as the spec's reading (apply the boost
substitution to the core's own pair, then compare), provided the core's
capacity is positive. -/
theorem agg_step_eq (j : SugovCpu) (U M : Nat) (hj : 0 < j.max) :
    (sugov_iowait_boost j
        (if j.util * M > j.max * U then (j.util, j.max) else (U, M)).1
        (if j.util * M > j.max * U then (j.util, j.max) else (U, M)).2).1
    = (if (iowaitBoostedPair j).1 * M > (iowaitBoostedPair j).2 * U
       then iowaitBoostedPair j else (U, M)) := by
  unfold sugov_iowait_boost iowaitBoostedPair
  dsimp only
  by_cases hB : j.iowait_boost = 0
  · rw [if_pos hB, if_neg (show ¬ (j.iowait_boost ≠ 0 ∧
        j.util * j.iowait_boost_max < j.max * j.iowait_boost) from by
        simp [hB])]
  · rw [if_neg hB]
    by_cases h1 : j.util * j.iowait_boost_max < j.max * j.iowait_boost
    · rw [if_pos (show j.iowait_boost ≠ 0 ∧
          j.util * j.iowait_boost_max < j.max * j.iowait_boost from ⟨hB, h1⟩)]
      by_cases h2 : j.util * M > j.max * U
      · rw [if_pos h2]
        dsimp only
        rw [if_pos h1]
        have hM : 0 < M := by
          rcases Nat.eq_zero_or_pos M with h | h
          · exfalso
            rw [h, Nat.mul_zero] at h2
            exact absurd h2 (Nat.not_lt_zero _)
          · exact h
        have hcond : j.iowait_boost * M > j.iowait_boost_max * U := by
          rcases Nat.eq_zero_or_pos j.iowait_boost_max with hbm | hbm
          · rw [hbm, Nat.zero_mul]
            have hBpos : 0 < j.iowait_boost := by
              rcases Nat.eq_zero_or_pos j.iowait_boost with hb | hb
              · exact absurd hb hB
              · exact hb
            exact Nat.mul_pos hBpos hM
          · have e1 : j.util * j.iowait_boost_max * M <
                j.max * j.iowait_boost * M :=
              mul_lt_mul_of_pos_right h1 hM
            have e2 : j.max * U * j.iowait_boost_max <
                j.util * M * j.iowait_boost_max :=
              mul_lt_mul_of_pos_right h2 hbm
            have e3 : j.max * (j.iowait_boost_max * U) <
                j.max * (j.iowait_boost * M) := by
              calc j.max * (j.iowait_boost_max * U)
                  = j.max * U * j.iowait_boost_max := by ring
                _ < j.util * M * j.iowait_boost_max := e2
                _ = j.util * j.iowait_boost_max * M := by ring
                _ < j.max * j.iowait_boost * M := e1
                _ = j.max * (j.iowait_boost * M) := by ring
            exact lt_of_mul_lt_mul_left e3 (Nat.zero_le _)
        rw [if_pos hcond]
      · rw [if_neg h2]
        dsimp only
        by_cases h3 : U * j.iowait_boost_max < M * j.iowait_boost
        · rw [if_pos h3, if_pos (show j.iowait_boost * M >
              j.iowait_boost_max * U from by
            rw [Nat.mul_comm j.iowait_boost_max U]
            rw [show j.iowait_boost * M = M * j.iowait_boost from
              Nat.mul_comm _ _]
            exact h3)]
        · rw [if_neg h3, if_neg (show ¬ (j.iowait_boost * M >
              j.iowait_boost_max * U) from by
            intro hx
            apply h3
            rw [Nat.mul_comm U j.iowait_boost_max,
                Nat.mul_comm M j.iowait_boost]
            exact hx)]
    · rw [if_neg (show ¬ (j.iowait_boost ≠ 0 ∧
          j.util * j.iowait_boost_max < j.max * j.iowait_boost) from by
        intro hx
        exact h1 hx.2)]
      dsimp only
      by_cases h2 : j.util * M > j.max * U
      · rw [if_pos h2]
        dsimp only
        rw [if_neg h1]
      · rw [if_neg h2]
        dsimp only
        push_neg at h1 h2
        have hle : ¬ (U * j.iowait_boost_max < M * j.iowait_boost) := by
          intro hlt
          have e1 : j.max * j.iowait_boost * M ≤
              j.util * j.iowait_boost_max * M :=
            Nat.mul_le_mul h1 (le_refl M)
          have e2 : j.util * M * j.iowait_boost_max ≤
              j.max * U * j.iowait_boost_max :=
            Nat.mul_le_mul h2 (le_refl _)
          have e3 : j.max * (j.iowait_boost * M) ≤
              j.max * (U * j.iowait_boost_max) := by
            calc j.max * (j.iowait_boost * M)
                = j.max * j.iowait_boost * M := by ring
              _ ≤ j.util * j.iowait_boost_max * M := e1
              _ = j.util * M * j.iowait_boost_max := by ring
              _ ≤ j.max * U * j.iowait_boost_max := e2
              _ = j.max * (U * j.iowait_boost_max) := by ring
          have e4 : j.iowait_boost * M ≤ U * j.iowait_boost_max :=
            le_of_mul_le_mul_left e3 hj
          have e5 : M * j.iowait_boost ≤ U * j.iowait_boost_max := by
            rw [Nat.mul_comm M j.iowait_boost]
            exact e4
          exact absurd hlt (not_lt.mpr e5)
        rw [if_neg hle]

/-- The faithful aggregation loop and the spec-worded loop coincide on
every input whose cores all have positive capacity. -/
theorem shared_loop_eq (time : Nat) :
    ∀ (l : List SugovCpu) (U M : Nat), (∀ j ∈ l, 0 < j.max) →
      shared_loop time l U M = shared_loop_spec time l U M := by
  intro l
  induction l with
  | nil => intro U M h; rfl
  | cons j rest ih =>
    intro U M h
    have hj : 0 < j.max := h j (List.mem_cons_self _ _)
    have hrest : ∀ x ∈ rest, 0 < x.max :=
      fun x hx => h x (List.mem_cons_of_mem _ hx)
    unfold shared_loop shared_loop_spec
    by_cases hstale : deltaNs time j.last_update > (TICK_NSEC : Int)
    · rw [if_pos hstale, if_pos hstale]
      dsimp only
      rw [ih U M hrest]
    · rw [if_neg hstale, if_neg hstale]
      by_cases hDL : j.flags &&& SCHED_CPUFREQ_DL ≠ 0
      · rw [if_pos hDL, if_pos hDL]
      · rw [if_neg hDL, if_neg hDL]
        dsimp only
        rw [agg_step_eq j U M hj, iowait_boost_state,
            ih _ _ hrest]

/-- If some non-stale core of the list carries the deadline-class flag,
the aggregation loop short-circuits. -/
theorem shared_loop_dl (time : Nat) :
    ∀ (l : List SugovCpu) (U M : Nat),
      (∃ j ∈ l, ¬ (deltaNs time j.last_update > (TICK_NSEC : Int)) ∧
        j.flags &&& SCHED_CPUFREQ_DL ≠ 0) →
      (shared_loop time l U M).1 = none := by
  intro l
  induction l with
  | nil =>
    intro U M h
    obtain ⟨j, hj, _⟩ := h
    cases hj
  | cons k rest ih =>
    intro U M h
    unfold shared_loop
    by_cases hstale : deltaNs time k.last_update > (TICK_NSEC : Int)
    · rw [if_pos hstale]
      dsimp only
      apply ih
      obtain ⟨j, hmem, hns, hd⟩ := h
      rcases List.mem_cons.mp hmem with rfl | hmem2
      · exact absurd hstale hns
      · exact ⟨j, hmem2, hns, hd⟩
    · rw [if_neg hstale]
      by_cases hDL : k.flags &&& SCHED_CPUFREQ_DL ≠ 0
      · rw [if_pos hDL]
      · rw [if_neg hDL]
        dsimp only
        apply ih
        obtain ⟨j, hmem, hns, hd⟩ := h
        rcases List.mem_cons.mp hmem with rfl | hmem2
        · exact absurd hd hDL
        · exact ⟨j, hmem2, hns, hd⟩

/-- C5: over member cores of positive capacity, the shared aggregator
behaves exactly as the spec describes it — stale cores are skipped with
their boost cleared, and the (utilization, capacity) pair maximizing
`u/c` by cross-multiplication is selected with each core's iowait-boost
substitution applied to its own pair before the comparison — and whenever
some non-stale core carries the deadline-class flag the returned
frequency is the domain's maximum. -/
theorem C5_shared_aggregation (arch_inv : Bool) (sg : SugovPolicy)
    (cpus : List SugovCpu) (time : Nat) (h : ∀ j ∈ cpus, 0 < j.max) :
    sugov_next_freq_shared arch_inv sg cpus time =
      sugov_next_freq_shared_spec arch_inv sg cpus time
    ∧ ((∃ j ∈ cpus, ¬ (deltaNs time j.last_update > (TICK_NSEC : Int)) ∧
          j.flags &&& SCHED_CPUFREQ_DL ≠ 0) →
        (sugov_next_freq_shared arch_inv sg cpus time).1 =
          sg.policy.cpuinfo_max_freq) := by
  constructor
  · unfold sugov_next_freq_shared sugov_next_freq_shared_spec
    rw [shared_loop_eq time cpus 0 1 h]
  · intro hex
    have hnone := shared_loop_dl time cpus 0 1 hex
    unfold sugov_next_freq_shared
    rcases hsl : shared_loop time cpus 0 1 with ⟨r, cpus2⟩
    rw [hsl] at hnone
    simp only [] at hnone
    subst hnone
    rfl

/-- A non-stale core: utilization 800 of capacity 1024, no boost. -/
def cpuA : SugovCpu :=
  { iowait_boost := 0, iowait_boost_max := 1024, last_update := 900,
    util := 800, max := 1024, flags := 0, saved_idle_calls := 0 }

/-- A non-stale core: utilization 200 of capacity 1024, boost 512
pending. -/
def cpuB : SugovCpu :=
  { iowait_boost := 512, iowait_boost_max := 1024, last_update := 920,
    util := 200, max := 1024, flags := 0, saved_idle_calls := 0 }

/-- A non-stale core carrying the deadline-class flag. -/
def cpuDL : SugovCpu :=
  { iowait_boost := 0, iowait_boost_max := 1024, last_update := 900,
    util := 100, max := 1024, flags := 2, saved_idle_calls := 0 }

/-- C5 at concrete inputs: on the two-core domain `[cpuA, cpuB]` the
faithful aggregation agrees with the spec-worded one, and a domain
containing the deadline-class core returns the domain maximum 1000. -/
theorem C5_shared_aggregation_witness :
    sugov_next_freq_shared true sgpEx [cpuA, cpuB] 1000 =
      sugov_next_freq_shared_spec true sgpEx [cpuA, cpuB] 1000
    ∧ (sugov_next_freq_shared true sgpEx [cpuA, cpuDL] 1000).1 =
        sgpEx.policy.cpuinfo_max_freq :=
  ⟨(C5_shared_aggregation true sgpEx [cpuA, cpuB] 1000 (by decide)).1,
   (C5_shared_aggregation true sgpEx [cpuA, cpuDL] 1000 (by decide)).2
     ⟨cpuDL, by decide, by decide, by decide⟩⟩

end Schedutil
